import Mathlib

/-!
Shallow embedding of the gridsome-source-notion-api plugin (src/index.js).

The JavaScript source is a Gridsome source plugin that fetches paginated
page/block data from the Notion API and renders it to markdown.  The
definitions below translate the functions of `src/index.js` into Lean:

* the annotation pipeline (`get stylize`) over a span-context object,
* the inline text renderer `blockToString`,
* the property normalizer `getNotionPageProperties`,
* the markdown emitter `notionBlockToMarkdown`,
* the two pagination loops `getPages` and `getBlocks`.

JavaScript objects with a fixed field set are modelled as Lean structures;
dynamic truthiness checks are modelled field by field (see the comments at
each definition).  The two `while (hasMore)` loops can diverge, so they are
modelled with an explicit fuel parameter: a `none` result means the loop did
not finish within the given fuel (for the concrete divergent sources below,
`none` for every fuel).
-/

namespace NotionAPIPlugin

/-! ### Inline-text spans (Notion rich-text items) -/

/-- The JS value stored under `text.link` of a rich-text item.  The source
uses it as `link.url ? link.url : link` inside a template string, so it is
either a raw string or a structured object with an optional `url` field
(an object interpolates as "[object Object]"). -/
inductive LinkVal where
  | str (s : String)
  | obj (url : Option String)
deriving DecidableEq, Repr

/-- The `annotations` object of a rich-text item (`textBlock.annotations`). -/
structure Annots where
  bold : Bool := false
  italic : Bool := false
  strikethrough : Bool := false
  underline : Bool := false
  code : Bool := false
  color : String := "default"
deriving DecidableEq, Repr

/-- The `text` object of a rich-text item (`textBlock.text`). -/
structure TextPayload where
  content : String
  link : Option LinkVal := none
deriving DecidableEq, Repr

/-- The `mention.date` object.  The source reads `date.start` and `date.end`
(`end` is not a legal Lean name, so the field is called `endDate`). -/
structure DateVal where
  start : String
  endDate : Option String := none
deriving DecidableEq, Repr

/-- The `mention` object of a rich-text item, discriminated on
`mention.type`; mention types other than user/date/page fall through all
three `if`s of `blockToString` unchanged. -/
inductive Mention where
  | user
  | date (d : DateVal)
  | page
  | other (t : String)
deriving DecidableEq, Repr

/-- One raw rich-text item as consumed by `blockToString`.  `text` is absent
(`none`) on equation and mention items, `equation` holds
`equation.expression` when present. -/
structure Span where
  type : String
  text : Option TextPayload := none
  annots : Annots := {}
  equation : Option String := none
  mention : Option Mention := none
  plain_text : String := ""
deriving DecidableEq, Repr

/-- The span-context object `data` built in `blockToString` by
`{...textBlock.text, ...textBlock.annotations}` plus the overrides for
equations and mentions; this is the object piped through `stylize`. -/
structure SpanCtx where
  content : String
  bold : Bool
  italic : Bool
  strikethrough : Bool
  underline : Bool
  code : Bool
  color : Option String
  link : Option LinkVal
  equation : Bool
deriving DecidableEq, Repr

/-! ### The annotation pipeline (`get stylize`)

The source builds the pipeline with or-pipets `pipeExtend`: each stage
either returns its input unchanged (`returnOrigin`) or returns an object
`{content: ...}` that `pipeExtend` merges into the piped value, so a firing
stage replaces exactly the `content` field and leaves every other field of
the context unchanged.  Each stage is therefore modelled as
`SpanCtx → SpanCtx` updating only `content`. -/

/-- Truthiness of the `link` field as tested by `pick("link")`: absent and
the empty string are falsy, every other string and any object is truthy. -/
def linkTruthy : Option LinkVal → Bool
  | none => false
  | some (LinkVal.str s) => !(s == "")
  | some (LinkVal.obj _) => true

/-- The string interpolated for the link target: `link.url ? link.url : link`.
On a raw string `link.url` is undefined, so the string itself is used; on an
object a truthy (nonempty) `url` is used, otherwise the object itself is
interpolated, which JavaScript prints as "[object Object]". -/
def linkUrlStr : LinkVal → String
  | LinkVal.str s => s
  | LinkVal.obj none => "[object Object]"
  | LinkVal.obj (some u) => if u == "" then "[object Object]" else u

/-- Interpolation of the `color` field; an absent field prints "undefined". -/
def colorStr : Option String → String
  | none => "undefined"
  | some c => c

def annotateBold (d : SpanCtx) : SpanCtx :=
  if d.bold then { d with content := "**" ++ d.content ++ "**" } else d

def annotateItalic (d : SpanCtx) : SpanCtx :=
  if d.italic then { d with content := "_" ++ d.content ++ "_" } else d

def annotateCode (d : SpanCtx) : SpanCtx :=
  if d.code then { d with content := "`" ++ d.content ++ "`" } else d

def annotateStrikethrough (d : SpanCtx) : SpanCtx :=
  if d.strikethrough then { d with content := "~~" ++ d.content ++ "~~" } else d

def annotateUnderline (d : SpanCtx) : SpanCtx :=
  if d.underline then { d with content := "<u>" ++ d.content ++ "</u>" } else d

/-- Fires when `color != "default"`; an absent color is also not equal to
"default" in JS, hence the comparison on the `Option`. -/
def annotateColor (d : SpanCtx) : SpanCtx :=
  if d.color = some "default" then d
  else { d with content :=
    "<span notion-color=\"" ++ colorStr d.color ++ "\">" ++ d.content ++ "</span>" }

def annotateLink (d : SpanCtx) : SpanCtx :=
  if linkTruthy d.link then
    { d with content :=
      "[" ++ d.content ++ "](" ++ linkUrlStr ((d.link).getD (LinkVal.str "")) ++ ")" }
  else d

def annotateEquation (d : SpanCtx) : SpanCtx :=
  if d.equation then { d with content := "$" ++ d.content ++ "$" } else d

/-- The first seven stages of the pipe, i.e. everything before the final
`pipeExtend(annotateEquation)`. -/
def stylizePre (d : SpanCtx) : SpanCtx :=
  annotateLink (annotateColor (annotateUnderline (annotateStrikethrough
    (annotateCode (annotateItalic (annotateBold d))))))

/-- `this.stylize.process`: the full ordered pipe
bold, italic, code, strikethrough, underline, color, link, equation. -/
def stylizeProcess (d : SpanCtx) : SpanCtx :=
  annotateEquation (annotateLink (annotateColor (annotateUnderline
    (annotateStrikethrough (annotateCode (annotateItalic (annotateBold d)))))))

/-! ### The inline text renderer (`blockToString`) -/

/-- The span-context built for one raw rich-text item: the spread
`{...textBlock.text, ...textBlock.annotations}` followed by the
equation and mention overrides of `blockToString`.  Reading `content` of an
absent `text` yields the undefined value, which stringifies as
"undefined". -/
def spanData (textBlock : Span) : SpanCtx :=
  let d0 : SpanCtx := {
    content := (textBlock.text.map TextPayload.content).getD "undefined"
    bold := textBlock.annots.bold
    italic := textBlock.annots.italic
    strikethrough := textBlock.annots.strikethrough
    underline := textBlock.annots.underline
    code := textBlock.annots.code
    color := some textBlock.annots.color
    link := textBlock.text.bind TextPayload.link
    equation := false }
  let d1 := if textBlock.type = "equation" then
      { d0 with content := textBlock.equation.getD "", equation := true }
    else d0
  if textBlock.type = "mention" then
    match textBlock.mention with
    | some Mention.user => { d1 with content := textBlock.plain_text }
    | some (Mention.date dv) =>
      let c := match dv.endDate with
        | some _ => dv.start ++ " → " ++ dv.start
        | none => dv.start
      { d1 with content := "<time datetime=\"" ++ c ++ "\">" ++ c ++ "</time>" }
    | some Mention.page => { d1 with content := textBlock.plain_text }
    | some (Mention.other _) => d1
    | none => d1
  else d1

/-- `blockToString`: fold of the annotation pipeline over a span sequence. -/
def blockToString (textBlocks : List Span) : String :=
  textBlocks.foldl (fun text textBlock =>
    text ++ (stylizeProcess (spanData textBlock)).content) ""

/-! ### The property normalizer (`getNotionPageProperties`)

`page.properties` is a JS object whose keys map to typed property entries;
the payload lives in a field named after the entry's `type`
(`page.properties[key][page.properties[key].type]`).  The map is modelled as
an association list (JS object keys are distinct and ordered) and the
type-named payload field as a single `payload` field, which is exactly what
the dynamic access reads on well-formed API data. -/

/-- The type-specific payload of a property entry: a span array (the shape
of `title` and `rich_text` payloads), a plain string (the shape a rich-text
payload has after the normalizer overwrote it), or any other value,
modelled opaquely. -/
inductive PropPayload where
  | spans (xs : List Span)
  | str (s : String)
  | raw (v : String)
deriving DecidableEq, Repr

/-- One entry of `page.properties`. -/
structure PropEntry where
  id : String
  type : String
  payload : PropPayload
deriving DecidableEq, Repr

/-- One entry of the normalizer's output object. -/
structure NormProp where
  id : String
  key : String
  value : PropPayload
  type : String
deriving DecidableEq, Repr

/-- JS object update `{...acc, [key]: v}`: an existing key keeps its
position and gets the new value, a new key is appended. -/
def objSet (acc : List (String × NormProp)) (k : String) (v : NormProp) :
    List (String × NormProp) :=
  if acc.any (fun q => q.1 == k) then
    acc.map (fun q => if q.1 == k then (k, v) else q)
  else acc ++ [(k, v)]

/-- The in-place mutation
`page.properties[key].rich_text = blockToString(page.properties[key].rich_text)`
performed on rich-text entries (other entries are untouched).  A rich-text
payload that is not a span array would make the JS crash; it is left
unchanged here, no claim depends on that corner. -/
def flattenEntry (e : PropEntry) : PropEntry :=
  if e.type = "rich_text" then
    match e.payload with
    | PropPayload.spans xs => { e with payload := PropPayload.str (blockToString xs) }
    | _ => e
  else e

/-- One step of the normalizer's `reduce`.  The state carries the
accumulator object and the post-mutation contents of `page.properties`
(the second component), because the source mutates the input map while
folding over its keys. -/
def getNotionPagePropertiesStep
    (st : List (String × NormProp) × List (String × PropEntry))
    (kv : String × PropEntry) :
    List (String × NormProp) × List (String × PropEntry) :=
  if kv.2.type = "title" then (st.1, st.2 ++ [kv])
  else
    let e2 := flattenEntry kv.2
    (objSet st.1 kv.1 { id := e2.id, key := kv.1, value := e2.payload, type := e2.type },
     st.2 ++ [(kv.1, e2)])

/-- `getNotionPageProperties(page)`: returns the normalized output object
together with the final (possibly mutated) state of `page.properties`. -/
def getNotionPageProperties (props : List (String × PropEntry)) :
    List (String × NormProp) × List (String × PropEntry) :=
  props.foldl getNotionPagePropertiesStep ([], [])

/-! ### Blocks and the markdown emitter (`notionBlockToMarkdown`) -/

/-- One Notion block (also used for the top-level page object, which is
passed to `notionBlockToMarkdown` as the root `block`).  The type-specific
payload `block[block.type].text` is modelled by the single `text` field and
`to_do.checked` by `checked`; `children` is the field attached by the
fetcher (absent, i.e. `[]`, until attached). -/
inductive Block where
  | mk (id : String) (type : String) (has_children : Bool) (checked : Bool)
       (text : List Span) (children : List Block)

def Block.id : Block → String
  | Block.mk i _ _ _ _ _ => i

def Block.type : Block → String
  | Block.mk _ t _ _ _ _ => t

def Block.has_children : Block → Bool
  | Block.mk _ _ h _ _ _ => h

def Block.checked : Block → Bool
  | Block.mk _ _ _ c _ _ => c

def Block.text : Block → List Span
  | Block.mk _ _ _ _ xs _ => xs

def Block.children : Block → List Block
  | Block.mk _ _ _ _ _ cs => cs

/-- `childBlock.children = ...`: the fetcher's in-place attachment. -/
def Block.withChildren : Block → List Block → Block
  | Block.mk i t h c xs _, cs => Block.mk i t h c xs cs

/-- The `paragraph` field of a block object: present (holding the block's
text payload) exactly on paragraph-typed blocks. -/
def Block.paragraph (b : Block) : Option (List Span) :=
  if b.type = "paragraph" then some b.text else none

/-- `this.EOL_MD`. -/
def EOL_MD : String := "\n"

/-- `"  ".repeat(depth)` and `"#".repeat(headingLevel)`. -/
def strRepeat (s : String) : Nat → String
  | 0 => ""
  | n + 1 => s ++ strRepeat s n

/-- JS `String.prototype.startsWith`, computed on the character list. -/
def strStartsWith (s p : String) : Bool := List.isPrefixOf p.data s.data

/-- JS `String.prototype.endsWith`, computed on the character list. -/
def strEndsWith (s p : String) : Bool := List.isSuffixOf p.data s.data

/-- The truthy-chained test
`block.paragraph && block.paragraph.text && block.paragraph.text[0] &&
 block.paragraph.text[0].plain_text &&
 block.paragraph.text[0].plain_text.startsWith("```")`.
Note that it inspects `block` — the parent whose children are being
reduced — not the paragraph child being emitted. -/
def isCodeSnippetLine (block : Block) : Bool :=
  match Block.paragraph block with
  | some (t :: _) => strStartsWith t.plain_text "```"
  | _ => false

/-- `Number(childBlock.type.split("_")[1])` for `heading_N` types. -/
def headingLevelOf (t : String) : Nat :=
  (((t.splitOn "_").getD 1 "").toNat?).getD 0

/-- The body of the emitter's `reduce` callback, after `childBlocksString`
(the rendered nested-children string) has been computed: dispatch on
`childBlock.type` and extend the accumulator.  `block` is the parent whose
`children` are being reduced. -/
def mdDispatch (block : Block) (lowerTitleLevel : Bool) (acc : String)
    (childBlock : Block) (childBlocksString : String) : String :=
  if childBlock.type = "paragraph" then
    let p := blockToString childBlock.text
    let isTableRow := strStartsWith p "|" && strEndsWith p "|"
    acc ++ p
      ++ (if isTableRow || isCodeSnippetLine block then EOL_MD else EOL_MD ++ EOL_MD)
      ++ childBlocksString
  else if strStartsWith childBlock.type "heading_" then
    acc ++ EOL_MD
      ++ (if lowerTitleLevel then "#" else "")
      ++ strRepeat "#" (headingLevelOf childBlock.type)
      ++ " " ++ blockToString childBlock.text ++ EOL_MD ++ childBlocksString
  else if childBlock.type = "to_do" then
    acc ++ (if childBlock.checked then "- [x] " else "- [ ] ")
      ++ blockToString childBlock.text ++ EOL_MD ++ childBlocksString
  else if childBlock.type = "bulleted_list_item" then
    acc ++ "* " ++ blockToString childBlock.text ++ EOL_MD ++ childBlocksString
  else if childBlock.type = "numbered_list_item" then
    acc ++ "1. " ++ blockToString childBlock.text ++ EOL_MD ++ childBlocksString
  else if childBlock.type = "toggle" then
    acc ++ "<details><summary>" ++ blockToString childBlock.text ++ "</summary>"
      ++ childBlocksString ++ "</details>"
  else if childBlock.type = "unsupported" then
    acc ++ "<!-- This block is not supported by Notion API yet. -->"
      ++ EOL_MD ++ childBlocksString
  else acc

mutual

/-- `notionBlockToMarkdown(block, lowerTitleLevel, depth)`: reduce the
block's children left to right, starting from the empty accumulator. -/
def notionBlockToMarkdown (block : Block) (lowerTitleLevel : Bool) (depth : Nat) : String :=
  mdChildren block lowerTitleLevel depth block.children ""
termination_by (sizeOf block, 1)
decreasing_by
  apply Prod.Lex.left
  cases block
  simp [Block.children]
  try omega

/-- The left fold of the emitter's `reduce` over the `children` array:
for each child, first compute `childBlocksString` (empty unless
`childBlock.has_children`, else indentation + recursive rendering at
`depth + 2` + newline), then dispatch. -/
def mdChildren (block : Block) (lowerTitleLevel : Bool) (depth : Nat)
    (bs : List Block) (acc : String) : String :=
  match bs with
  | [] => acc
  | childBlock :: rest =>
    let childBlocksString :=
      if childBlock.has_children then
        strRepeat "  " depth ++ ""
          ++ notionBlockToMarkdown childBlock lowerTitleLevel (depth + 2) ++ EOL_MD
      else ""
    mdChildren block lowerTitleLevel depth rest
      (mdDispatch block lowerTitleLevel acc childBlock childBlocksString)
termination_by (sizeOf bs, 0)
decreasing_by
  all_goals apply Prod.Lex.left
  all_goals simp
  all_goals omega

end

/-! ### The pagination loops (`getPages` and `getBlocks`)

The remote endpoint is modelled as a script `src : Nat → Resp α` giving the
outcome of the i-th request a loop issues (the mock pages are served in
arrival order; the cursor sent with a request is still tracked in the loop
state, exactly as the source updates it).  A `Resp.threw` outcome is a
rejected fetch or a non-JSON body, i.e. anything that makes the `try` block
throw before `result` is usable; `Resp.ok results next_cursor has_more`
is a parsed JSON body, whose `results` field may be absent (`none`).

Both `while (hasMore)` loops may diverge (the `catch` only logs, it does
not clear `hasMore`), so the loops take a fuel parameter and return `none`
when the fuel is exhausted before the loop exits.  On success they return
`(number of requests issued, collected items)`; the request counter is
observational instrumentation for the pagination claims, the items list is
the function's JS return value. -/

/-- Outcome of one request, as seen from inside the `try` block. -/
inductive Resp (α : Type) where
  | threw
  | ok (results : Option (List α)) (next_cursor : Option String) (has_more : Bool)

/-- The `while (hasMore)` loop of `getPages`.  State: `hasMore`,
`startCursor`, the `pages` array, and the number of requests issued so far.
`attach` models `page.children = await this.getBlocks(...)` performed on
every received page before it is pushed.  On `Resp.threw` the catch block
only logs: every state component is left unchanged and the loop re-enters.
On a parsed body, `startCursor` and `hasMore` are updated first; if
`results` is absent the `for...of` throws into the catch after that update
(items unchanged), otherwise the pages are attached and pushed in order. -/
def getPagesLoop {α : Type} (attach : α → α) (src : Nat → Resp α) (fuel : Nat)
    (hasMore : Bool) (startCursor : Option String) (pages : List α) (reqs : Nat) :
    Option (Nat × List α) :=
  if hasMore then
    match fuel with
    | 0 => none
    | fuel + 1 =>
      match src reqs with
      | Resp.threw => getPagesLoop attach src fuel hasMore startCursor pages (reqs + 1)
      | Resp.ok results next_cursor has_more =>
        getPagesLoop attach src fuel has_more next_cursor
          (match results with
           | none => pages
           | some its => pages ++ its.map attach)
          (reqs + 1)
  else some (reqs, pages)

/-- `getPages`: the loop starts with `hasMore = true`, no cursor, `[]`. -/
def getPages {α : Type} (attach : α → α) (src : Nat → Resp α) (fuel : Nat) :
    Option (Nat × List α) :=
  getPagesLoop attach src fuel true none [] 0

mutual

/-- The `while (hasMore)` loop of `getBlocks` for one parent `id`.
`src id i` is the outcome of the i-th request this loop issues for that id.
Unlike `getPages`, the `for...of` over `result.results` runs *before*
`startCursor`/`hasMore` are updated, so an absent `results` field leaves the
whole state unchanged, exactly like a thrown fetch. -/
def getBlocksLoop (src : String → Nat → Resp Block) (fuel : Nat) (id : String)
    (hasMore : Bool) (startCursor : Option String) (blockContent : List Block)
    (reqs : Nat) : Option (Nat × List Block) :=
  if hasMore then
    match fuel with
    | 0 => none
    | fuel + 1 =>
      match src id reqs with
      | Resp.threw => getBlocksLoop src fuel id hasMore startCursor blockContent (reqs + 1)
      | Resp.ok none _ _ => getBlocksLoop src fuel id hasMore startCursor blockContent (reqs + 1)
      | Resp.ok (some results) next_cursor has_more =>
        match attachChildren src fuel results with
        | none => none
        | some withKids =>
          getBlocksLoop src fuel id has_more next_cursor
            (blockContent ++ withKids) (reqs + 1)
  else some (reqs, blockContent)
termination_by (fuel, 1, 0)
decreasing_by
  all_goals apply Prod.Lex.left
  all_goals omega

/-- The `for (let childBlock of result.results)` body: every child that
reports `has_children` gets its own recursive `getBlocks` descent (with a
fresh loop state) attached in place before the page is accumulated.  A
diverging recursive descent (fuel exhaustion) makes the whole call
diverge. -/
def attachChildren (src : String → Nat → Resp Block) (fuel : Nat) :
    List Block → Option (List Block)
  | [] => some []
  | b :: rest =>
    match (if b.has_children then
             (getBlocksLoop src fuel b.id true none [] 0).map
               (fun r => b.withChildren r.2)
           else some b) with
    | none => none
    | some b2 =>
      match attachChildren src fuel rest with
      | none => none
      | some bs => some (b2 :: bs)
termination_by l => (fuel, 2, sizeOf l)
decreasing_by
  · apply Prod.Lex.right
    apply Prod.Lex.left
    omega
  · apply Prod.Lex.right
    apply Prod.Lex.right
    simp
    try omega

end

/-- `getBlocks({id, ...})`. -/
def getBlocks (src : String → Nat → Resp Block) (fuel : Nat) (id : String) :
    Option (Nat × List Block) :=
  getBlocksLoop src fuel id true none [] 0

/-- A scripted well-formed pagination run starting at request index `r`:
every page carries a `results` array, every page but the last reports
`has_more = true`, the last reports `has_more = false` (with arbitrary
cursors).  This is the "mocked paginated source" of the pagination
claims. -/
def ScriptedOk {α : Type} (src : Nat → Resp α) : Nat → List (List α) → Prop
  | _, [] => True
  | r, [p] => ∃ c, src r = Resp.ok (some p) c false
  | r, p :: q :: rest =>
    (∃ c, src r = Resp.ok (some p) c true) ∧ ScriptedOk src (r + 1) (q :: rest)

/-! ### Predicates and concrete objects used in the claims -/

/-- All fields of a span-context other than `content` agree. -/
def nonContentEq (a b : SpanCtx) : Prop :=
  a.bold = b.bold ∧ a.italic = b.italic ∧ a.strikethrough = b.strikethrough ∧
  a.underline = b.underline ∧ a.code = b.code ∧ a.color = b.color ∧
  a.link = b.link ∧ a.equation = b.equation

/-- A pipeline stage replaces at most the `content` field. -/
def preservesNonContent (f : SpanCtx → SpanCtx) : Prop :=
  ∀ d, nonContentEq (f d) d

/-- The C2 example context: content "x", bold set, a structured link with
url "u", everything else inactive (color "default"). -/
def boldLinkCtx : SpanCtx :=
  { content := "x", bold := true, italic := false, strikethrough := false,
    underline := false, code := false, color := some "default",
    link := some (LinkVal.obj (some "u")), equation := false }

/-- An equation span with the bold flag also set. -/
def boldEquationSpan : Span :=
  { type := "equation", equation := some "e", annots := { bold := true } }

/-- An equation span with expression `e` and no other style flag active
(default annotations, no text/link); `pt` and `mnt` are the remaining raw
fields, which the renderer ignores for equation-typed spans. -/
def eqSpanOf (e pt : String) (mnt : Option Mention) : Span :=
  { type := "equation", text := none, annots := {},
    equation := some e, mention := mnt, plain_text := pt }

/-- The span-context `blockToString` builds for `eqSpanOf e _ _`. -/
def eqCtxOf (e : String) : SpanCtx :=
  { content := e, bold := false, italic := false, strikethrough := false,
    underline := false, code := false, color := some "default",
    link := none, equation := true }

/-- C6 witness context: an arbitrary context with the equation marker set. -/
def eqMarkedCtx : SpanCtx :=
  { content := "c", bold := true, italic := false, strikethrough := false,
    underline := false, code := false, color := some "default", link := none,
    equation := true }

/-- A date-mention span with no other style flags active. -/
def mkDateSpan (s : String) (e : Option String) : Span :=
  { type := "mention", mention := some (Mention.date { start := s, endDate := e }) }

/-- The output entry the normalizer builds for a non-title key. -/
def normOut (k : String) (e : PropEntry) : NormProp :=
  { id := (flattenEntry e).id, key := k, value := (flattenEntry e).payload,
    type := (flattenEntry e).type }

/-- A concrete one-entry rich-text property map for witnesses and the C8
counterexample. -/
def rtSpanW : Span := { type := "text", text := some { content := "hi" } }

def rtEntryW : PropEntry :=
  { id := "a", type := "rich_text", payload := PropPayload.spans [rtSpanW] }

/-- A plain-text span whose text opens a code fence. -/
def fenceSpan : Span :=
  { type := "text", text := some { content := "```js" }, plain_text := "```js" }

/-- A paragraph block whose first (and only) raw span starts with three
backticks, with no children. -/
def fencePara : Block := Block.mk "p1" "paragraph" false false [fenceSpan] []

/-- A top-level page object holding the fence paragraph as its only child. -/
def pageBlk : Block := Block.mk "pg" "page" true false [] [fencePara]

/-- An unrecognized block (a `child_page`) that reports children and has a
materialized subtree. -/
def unkBlk : Block := Block.mk "u1" "child_page" true false [] [fencePara]

/-- The scripted source of the C1 scenario: page 1 succeeds and reports
has-more, the second request fails (a rejected fetch / non-JSON body), the
next request is served page 3 with has-more false. -/
def pageFailSrc : Nat → Resp String := fun i =>
  if i = 0 then Resp.ok (some ["a"]) (some "c1") true
  else if i = 1 then Resp.threw
  else Resp.ok (some ["c"]) none false

/-- A one-page scripted source for the C5 witness. -/
def onePageSrc : Nat → Resp Nat := fun _ => Resp.ok (some [7, 8]) none false

/-- A childless block and the one-page block source for the C5 witness. -/
def leafBlkW : Block := Block.mk "b1" "paragraph" false false [] []

def oneBlockSrc : String → Nat → Resp Block := fun _ _ =>
  Resp.ok (some [leafBlkW]) none false

/-! ## Helper lemmas -/

lemma empty_append_str (s : String) : "" ++ s = s := by
  cases s
  rfl

lemma nonContentEq_trans {a b c : SpanCtx}
    (h1 : nonContentEq a b) (h2 : nonContentEq b c) : nonContentEq a c := by
  obtain ⟨e1, e2, e3, e4, e5, e6, e7, e8⟩ := h1
  obtain ⟨f1, f2, f3, f4, f5, f6, f7, f8⟩ := h2
  exact ⟨e1.trans f1, e2.trans f2, e3.trans f3, e4.trans f4,
         e5.trans f5, e6.trans f6, e7.trans f7, e8.trans f8⟩

lemma annotateBold_frame : preservesNonContent annotateBold := by
  intro d
  unfold annotateBold nonContentEq
  split <;> simp

lemma annotateItalic_frame : preservesNonContent annotateItalic := by
  intro d
  unfold annotateItalic nonContentEq
  split <;> simp

lemma annotateCode_frame : preservesNonContent annotateCode := by
  intro d
  unfold annotateCode nonContentEq
  split <;> simp

lemma annotateStrikethrough_frame : preservesNonContent annotateStrikethrough := by
  intro d
  unfold annotateStrikethrough nonContentEq
  split <;> simp

lemma annotateUnderline_frame : preservesNonContent annotateUnderline := by
  intro d
  unfold annotateUnderline nonContentEq
  split <;> simp

lemma annotateColor_frame : preservesNonContent annotateColor := by
  intro d
  unfold annotateColor nonContentEq
  split <;> simp

lemma annotateLink_frame : preservesNonContent annotateLink := by
  intro d
  unfold annotateLink nonContentEq
  split <;> simp

lemma annotateEquation_frame : preservesNonContent annotateEquation := by
  intro d
  unfold annotateEquation nonContentEq
  split <;> simp

lemma stylizePre_frame : preservesNonContent stylizePre := by
  intro d
  exact nonContentEq_trans (annotateLink_frame _)
    (nonContentEq_trans (annotateColor_frame _)
      (nonContentEq_trans (annotateUnderline_frame _)
        (nonContentEq_trans (annotateStrikethrough_frame _)
          (nonContentEq_trans (annotateCode_frame _)
            (nonContentEq_trans (annotateItalic_frame _) (annotateBold_frame d))))))

/-! ## Claims about the annotation pipeline and inline text renderer -/

/-- C2: the annotation pipeline applies its wrappers in the fixed order
bold, italic, code, strikethrough, underline, color, link, equation; for a
span-context with content "x", bold set and link `{url:"u"}` (all other
flags inactive) the output is exactly "[**x**](u)" and never
"**[x](u)**". -/
theorem annotation_order_fixed :
    (∀ d : SpanCtx, stylizeProcess d =
      annotateEquation (annotateLink (annotateColor (annotateUnderline
        (annotateStrikethrough (annotateCode (annotateItalic (annotateBold d)))))))) ∧
    (stylizeProcess boldLinkCtx).content = "[**x**](u)" ∧
    (stylizeProcess boldLinkCtx).content ≠ "**[x](u)**" :=
  ⟨fun _ => rfl, by decide, by decide⟩

/-- C9: every stage of the annotation pipeline replaces only the `content`
field of the span-context; the style flags, color, link and equation marker
are passed unchanged to the next stage, so an earlier stage firing never
affects a later stage's triggering condition. -/
theorem stage_frame_preserved :
    preservesNonContent annotateBold ∧ preservesNonContent annotateItalic ∧
    preservesNonContent annotateCode ∧ preservesNonContent annotateStrikethrough ∧
    preservesNonContent annotateUnderline ∧ preservesNonContent annotateColor ∧
    preservesNonContent annotateLink ∧ preservesNonContent annotateEquation :=
  ⟨annotateBold_frame, annotateItalic_frame, annotateCode_frame,
   annotateStrikethrough_frame, annotateUnderline_frame, annotateColor_frame,
   annotateLink_frame, annotateEquation_frame⟩

/-- C6 counterexample: an equation span with expression "e" and bold=true
renders as "$**e**$", not "$e$" — the equation wrapper is applied last, on
top of the other annotation wrappers, so the output is not "$expr$"
regardless of the other style flags. -/
theorem equation_flags_counterexample :
    blockToString [boldEquationSpan] = "$**e**$" ∧
    ("$**e**$" : String) ≠ "$e$" :=
  ⟨by decide, by decide⟩

/-- C6 (amended): an equation span renders as exactly "$expr$" when no
other style flag is active (color "default", no link); in general the
equation wrapper "$...$" is applied last, around the result of the other
seven annotation stages on the expression. -/
theorem equation_render_amended :
    (∀ (e pt : String) (mnt : Option Mention),
      blockToString [eqSpanOf e pt mnt] = "$" ++ e ++ "$") ∧
    (∀ d : SpanCtx, d.equation = true →
      (stylizeProcess d).content = "$" ++ (stylizePre d).content ++ "$") := by
  constructor
  · intro e pt mnt
    show "" ++ _ = _
    rw [empty_append_str]
    show (stylizeProcess (spanData _)).content = _
    have hsd : spanData (eqSpanOf e pt mnt) = eqCtxOf e := by
      cases mnt with
      | none => rfl
      | some m => cases m <;> rfl
    rw [hsd]
    rfl
  · intro d hd
    have he : (stylizePre d).equation = true := by
      rw [(stylizePre_frame d).2.2.2.2.2.2.2, hd]
    show (annotateEquation (stylizePre d)).content = _
    unfold annotateEquation
    rw [he]
    simp

theorem equation_render_amended_witness :
    eqMarkedCtx.equation = true ∧
    (stylizeProcess eqMarkedCtx).content = "$" ++ (stylizePre eqMarkedCtx).content ++ "$" :=
  ⟨rfl, equation_render_amended.2 eqMarkedCtx rfl⟩

/-- C7: a date mention with start "2021-01-01" and no end renders as
exactly the `<time>` element of its start date; with an end date the arrow
form is produced with the start value on both sides of the arrow (the
source's duplication), wrapped in the same `<time datetime="...">`
element. -/
theorem date_mention_render :
    blockToString [mkDateSpan "2021-01-01" none] =
      "<time datetime=\"2021-01-01\">2021-01-01</time>" ∧
    (∀ s e : String, blockToString [mkDateSpan s (some e)] =
      "<time datetime=\"" ++ (s ++ " → " ++ s) ++ "\">" ++ (s ++ " → " ++ s) ++ "</time>") := by
  constructor
  · decide
  · intro s e
    exact empty_append_str _

/-! ## Claims about the property normalizer -/

lemma objSet_fresh (acc : List (String × NormProp)) (k : String) (v : NormProp)
    (h : ∀ q ∈ acc, q.1 ≠ k) : objSet acc k v = acc ++ [(k, v)] := by
  unfold objSet
  have hany : acc.any (fun q => q.1 == k) = false := by
    rw [List.any_eq_false]
    intro q hq
    simpa using h q hq
  rw [hany]
  simp

lemma norm_foldl_snd (props : List (String × PropEntry))
    (st : List (String × NormProp) × List (String × PropEntry)) :
    (props.foldl getNotionPagePropertiesStep st).2
      = st.2 ++ props.map (fun kv => (kv.1, flattenEntry kv.2)) := by
  induction props generalizing st with
  | nil => simp
  | cons kv rest ih =>
    rw [List.foldl_cons, ih]
    unfold getNotionPagePropertiesStep
    by_cases h : kv.2.type = "title"
    · have hf : flattenEntry kv.2 = kv.2 := by
        unfold flattenEntry
        rw [if_neg]
        rw [h]
        decide
      simp [h, hf]
    · simp [h]

lemma norm_foldl_fst (props : List (String × PropEntry))
    (out : List (String × NormProp)) (post : List (String × PropEntry))
    (hfresh : ∀ kv ∈ props, ∀ q ∈ out, q.1 ≠ kv.1)
    (hnd : (props.map Prod.fst).Nodup) :
    (props.foldl getNotionPagePropertiesStep (out, post)).1
      = out ++ props.filterMap (fun kv =>
          if kv.2.type = "title" then none
          else some (kv.1, normOut kv.1 kv.2)) := by
  induction props generalizing out post with
  | nil => simp
  | cons kv rest ih =>
    rw [List.foldl_cons]
    rw [List.map_cons, List.nodup_cons] at hnd
    by_cases h : kv.2.type = "title"
    · have hstep : getNotionPagePropertiesStep (out, post) kv = (out, post ++ [kv]) := by
        unfold getNotionPagePropertiesStep
        rw [if_pos h]
      rw [hstep, ih out (post ++ [kv])
        (fun kv' hkv' q hq => hfresh kv' (List.mem_cons_of_mem _ hkv') q hq) hnd.2]
      rw [List.filterMap_cons_none (by rw [if_pos h])]
    · have hset : objSet out kv.1 (normOut kv.1 kv.2) = out ++ [(kv.1, normOut kv.1 kv.2)] :=
        objSet_fresh out kv.1 _ (fun q hq => hfresh kv (List.mem_cons_self _ _) q hq)
      have hstep : getNotionPagePropertiesStep (out, post) kv
          = (out ++ [(kv.1, normOut kv.1 kv.2)], post ++ [(kv.1, flattenEntry kv.2)]) := by
        unfold getNotionPagePropertiesStep
        rw [if_neg h]
        show (objSet out kv.1 (normOut kv.1 kv.2), post ++ [(kv.1, flattenEntry kv.2)]) = _
        rw [hset]
      have hfresh2 : ∀ kv' ∈ rest, ∀ q ∈ out ++ [(kv.1, normOut kv.1 kv.2)], q.1 ≠ kv'.1 := by
        intro kv' hkv' q hq
        rcases List.mem_append.mp hq with hq1 | hq2
        · exact hfresh kv' (List.mem_cons_of_mem _ hkv') q hq1
        · have hq3 : q = (kv.1, normOut kv.1 kv.2) := by simpa using hq2
          rw [hq3]
          intro hkk
          exact hnd.1 (hkk ▸ List.mem_map_of_mem Prod.fst hkv')
      rw [hstep]
      rw [ih (out ++ [(kv.1, normOut kv.1 kv.2)]) (post ++ [(kv.1, flattenEntry kv.2)])
        hfresh2 hnd.2]
      rw [List.filterMap_cons_some (by rw [if_neg h]), List.append_assoc]
      rfl

/-- C3: for every property map with distinct keys, a rich-text-typed entry
is stored in the normalizer's output with its value replaced by the inline
text renderer's output (one concatenated string) over the entry's span
sequence. -/
theorem rich_text_normalized (props : List (String × PropEntry)) (k : String)
    (e : PropEntry) (xs : List Span)
    (hnd : (props.map Prod.fst).Nodup) (hmem : (k, e) ∈ props)
    (ht : e.type = "rich_text") (hp : e.payload = PropPayload.spans xs) :
    (k, { id := e.id, key := k, value := PropPayload.str (blockToString xs),
          type := "rich_text" }) ∈ (getNotionPageProperties props).1 := by
  unfold getNotionPageProperties
  rw [norm_foldl_fst props [] [] (by simp) hnd, List.nil_append]
  apply List.mem_filterMap.mpr
  refine ⟨(k, e), hmem, ?_⟩
  rw [if_neg (by simp [ht])]
  have hfe : flattenEntry e = { e with payload := PropPayload.str (blockToString xs) } := by
    unfold flattenEntry
    rw [if_pos ht, hp]
  unfold normOut
  rw [hfe]
  simp [ht]

theorem rich_text_normalized_witness :
    (([("A", rtEntryW)].map Prod.fst).Nodup ∧ ("A", rtEntryW) ∈ [("A", rtEntryW)]) ∧
    ("A", { id := "a", key := "A", value := PropPayload.str "hi", type := "rich_text" })
      ∈ (getNotionPageProperties [("A", rtEntryW)]).1 := by
  refine ⟨⟨by simp, by simp⟩, ?_⟩
  have hbs : blockToString [rtSpanW] = "hi" := by decide
  have h := rich_text_normalized [("A", rtEntryW)] "A" rtEntryW [rtSpanW]
    (by simp) (by simp) rfl rfl
  rw [hbs] at h
  exact h

/-- C8 counterexample: the normalizer mutates its input map — after running
it on a map with one rich-text entry, that entry's payload has been
replaced in place by the rendered string, so the input map observed from
outside is no longer equal to the original. -/
theorem normalizer_mutates_input :
    (getNotionPageProperties [("A", rtEntryW)]).2
      = [("A", { id := "a", type := "rich_text", payload := PropPayload.str "hi" })] ∧
    (getNotionPageProperties [("A", rtEntryW)]).2 ≠ [("A", rtEntryW)] := by
  constructor
  · decide
  · decide

lemma keys_filterMap_norm (props : List (String × PropEntry)) :
    (props.filterMap (fun kv =>
        if kv.2.type = "title" then none
        else some (kv.1, normOut kv.1 kv.2))).map Prod.fst
      = (props.filter (fun kv => !(kv.2.type == "title"))).map Prod.fst := by
  induction props with
  | nil => simp
  | cons kv rest ih =>
    by_cases h : kv.2.type = "title"
    · rw [List.filterMap_cons_none (by rw [if_pos h])]
      rw [List.filter_cons_of_neg (by simp [h])]
      exact ih
    · rw [List.filterMap_cons_some (by rw [if_neg h])]
      rw [List.filter_cons_of_pos (by simp [h])]
      simp only [List.map_cons]
      rw [ih]

/-- C8 (amended): running the normalizer mutates exactly the
rich-text-typed entries of the input map (their span payload is replaced in
place by the rendered string; all other entries, title included, are left
unchanged), and for a map with distinct keys the output's key sequence
equals the input's keys minus the title-typed keys. -/
theorem normalizer_amended (props : List (String × PropEntry))
    (hnd : (props.map Prod.fst).Nodup) :
    (getNotionPageProperties props).2
      = props.map (fun kv => (kv.1, flattenEntry kv.2)) ∧
    (getNotionPageProperties props).1.map Prod.fst
      = (props.filter (fun kv => !(kv.2.type == "title"))).map Prod.fst := by
  constructor
  · unfold getNotionPageProperties
    rw [norm_foldl_snd]
    simp
  · unfold getNotionPageProperties
    rw [norm_foldl_fst props [] [] (by simp) hnd, List.nil_append]
    exact keys_filterMap_norm props

theorem normalizer_amended_witness :
    (([("A", rtEntryW)].map Prod.fst).Nodup) ∧
    (getNotionPageProperties [("A", rtEntryW)]).2
      = [("A", rtEntryW)].map (fun kv => (kv.1, flattenEntry kv.2)) ∧
    (getNotionPageProperties [("A", rtEntryW)]).1.map Prod.fst
      = ([("A", rtEntryW)].filter (fun kv => !(kv.2.type == "title"))).map Prod.fst :=
  ⟨by simp, (normalizer_amended [("A", rtEntryW)] (by simp)).1,
   (normalizer_amended [("A", rtEntryW)] (by simp)).2⟩

/-! ## Claims about the markdown emitter -/

lemma mdChildren_nil (block : Block) (lowerTitleLevel : Bool) (depth : Nat)
    (acc : String) : mdChildren block lowerTitleLevel depth [] acc = acc := by
  rw [mdChildren.eq_def]

lemma mdChildren_cons (block : Block) (lowerTitleLevel : Bool) (depth : Nat)
    (childBlock : Block) (rest : List Block) (acc : String) :
    mdChildren block lowerTitleLevel depth (childBlock :: rest) acc
      = mdChildren block lowerTitleLevel depth rest
          (mdDispatch block lowerTitleLevel acc childBlock
            (if childBlock.has_children then
               strRepeat "  " depth ++ ""
                 ++ notionBlockToMarkdown childBlock lowerTitleLevel (depth + 2) ++ EOL_MD
             else "")) := by
  rw [mdChildren.eq_def]

/-- C4 counterexample: a paragraph whose own first raw span's plain text
starts with three backticks is emitted with a double newline, because the
code-fence test inspects the parent block (here the page, which has no
paragraph payload), not the paragraph child being emitted. -/
theorem paragraph_fence_counterexample :
    notionBlockToMarkdown pageBlk true 0 = "```js\n\n" ∧
    ("```js\n\n" : String) ≠ "```js\n" := by
  constructor
  · rw [notionBlockToMarkdown]
    rw [show pageBlk.children = [fencePara] from rfl]
    rw [mdChildren_cons, mdChildren_nil]
    decide
  · decide

/-- C4 (amended): for every paragraph child block, the emitter appends the
rendered inline text, then a single newline when the rendered content is a
table row (starts and ends with "|") or when the *parent* block has a
paragraph payload whose first raw span's plain text starts with three
backticks, and a double newline otherwise, then the rendered
nested-children string. -/
theorem paragraph_emission_amended (block : Block) (lowerTitleLevel : Bool)
    (acc : String) (childBlock : Block) (childBlocksString : String)
    (h : childBlock.type = "paragraph") :
    mdDispatch block lowerTitleLevel acc childBlock childBlocksString =
      acc ++ blockToString childBlock.text
        ++ (if (strStartsWith (blockToString childBlock.text) "|"
                && strEndsWith (blockToString childBlock.text) "|")
              || isCodeSnippetLine block
            then EOL_MD else EOL_MD ++ EOL_MD)
        ++ childBlocksString := by
  unfold mdDispatch
  rw [if_pos h]

theorem paragraph_emission_amended_witness :
    fencePara.type = "paragraph" ∧
    mdDispatch pageBlk true "A" fencePara "S" = "A" ++ "```js" ++ "\n\n" ++ "S" := by
  refine ⟨rfl, ?_⟩
  rw [paragraph_emission_amended pageBlk true "A" fencePara "S" rfl]
  decide

/-- C10: a child block whose type tag is none of the recognized kinds
(paragraph, heading_*, to_do, bulleted_list_item, numbered_list_item,
toggle, unsupported) leaves the emitter's accumulator unchanged, whatever
rendered nested-children string was computed for it — the block's whole
subtree contributes nothing. -/
theorem unknown_block_skipped (block : Block) (lowerTitleLevel : Bool)
    (acc : String) (childBlock : Block) (childBlocksString : String)
    (h1 : childBlock.type ≠ "paragraph")
    (h2 : strStartsWith childBlock.type "heading_" = false)
    (h3 : childBlock.type ≠ "to_do")
    (h4 : childBlock.type ≠ "bulleted_list_item")
    (h5 : childBlock.type ≠ "numbered_list_item")
    (h6 : childBlock.type ≠ "toggle")
    (h7 : childBlock.type ≠ "unsupported") :
    mdDispatch block lowerTitleLevel acc childBlock childBlocksString = acc := by
  simp [mdDispatch, h1, h2, h3, h4, h5, h6, h7]

theorem unknown_block_skipped_witness :
    (unkBlk.type ≠ "paragraph" ∧ strStartsWith unkBlk.type "heading_" = false ∧
      unkBlk.has_children = true) ∧
    mdDispatch pageBlk true "ACC" unkBlk "SUB" = "ACC" :=
  ⟨⟨by decide, by decide, rfl⟩,
    unknown_block_skipped pageBlk true "ACC" unkBlk "SUB" (by decide) (by decide)
      (by decide) (by decide) (by decide) (by decide) (by decide)⟩

/-! ## Claims about the pagination loops -/

lemma pagesLoop_false {α : Type} (attach : α → α) (src : Nat → Resp α)
    (fuel : Nat) (cur : Option String) (acc : List α) (r : Nat) :
    getPagesLoop attach src fuel false cur acc r = some (r, acc) := by
  cases fuel with
  | zero => rfl
  | succ n => rfl

lemma pagesLoop_succ_unfold {α : Type} (attach : α → α) (src : Nat → Resp α)
    (fuel : Nat) (cur : Option String) (acc : List α) (r : Nat) :
    getPagesLoop attach src (fuel + 1) true cur acc r
      = match src r with
        | Resp.threw => getPagesLoop attach src fuel true cur acc (r + 1)
        | Resp.ok results next_cursor has_more =>
          getPagesLoop attach src fuel has_more next_cursor
            (match results with
             | none => acc
             | some its => acc ++ its.map attach) (r + 1) := rfl

lemma pagesLoop_succ_threw {α : Type} (attach : α → α) (src : Nat → Resp α)
    (fuel : Nat) (cur : Option String) (acc : List α) (r : Nat)
    (h : src r = Resp.threw) :
    getPagesLoop attach src (fuel + 1) true cur acc r
      = getPagesLoop attach src fuel true cur acc (r + 1) := by
  rw [pagesLoop_succ_unfold, h]

lemma pagesLoop_succ_ok {α : Type} (attach : α → α) (src : Nat → Resp α)
    (fuel : Nat) (cur : Option String) (acc : List α) (r : Nat)
    (its : List α) (c : Option String) (b : Bool)
    (h : src r = Resp.ok (some its) c b) :
    getPagesLoop attach src (fuel + 1) true cur acc r
      = getPagesLoop attach src fuel b c (acc ++ its.map attach) (r + 1) := by
  rw [pagesLoop_succ_unfold, h]

lemma pagesLoop_diverges {α : Type} (attach : α → α) (src : Nat → Resp α) :
    ∀ (fuel : Nat) (cur : Option String) (acc : List α) (r : Nat),
      (∀ i, r ≤ i → src i = Resp.threw) →
      getPagesLoop attach src fuel true cur acc r = none := by
  intro fuel
  induction fuel with
  | zero => intro cur acc r h; rfl
  | succ n ih =>
    intro cur acc r h
    rw [pagesLoop_succ_threw attach src n cur acc r (h r (Nat.le_refl r))]
    exact ih cur acc (r + 1) (fun i hi => h i (by omega))

lemma pagesLoop_scripted {α : Type} (attach : α → α) (src : Nat → Resp α) :
    ∀ (ps : List (List α)) (fuel : Nat) (cur : Option String) (acc : List α) (r : Nat),
      ps ≠ [] → ScriptedOk src r ps →
      getPagesLoop attach src (ps.length + fuel) true cur acc r
        = some (r + ps.length, acc ++ (ps.flatten).map attach) := by
  intro ps
  induction ps with
  | nil => intro fuel cur acc r hne; exact absurd rfl hne
  | cons p rest ih =>
    intro fuel cur acc r hne hs
    cases rest with
    | nil =>
      unfold ScriptedOk at hs
      obtain ⟨c, hc⟩ := hs
      rw [show ([p] : List (List α)).length + fuel = fuel + 1 by
        simp only [List.length_cons, List.length_nil]; omega]
      rw [pagesLoop_succ_ok attach src fuel cur acc r p c false hc]
      rw [pagesLoop_false]
      simp
    | cons q rest2 =>
      unfold ScriptedOk at hs
      obtain ⟨⟨c, hc⟩, hrest⟩ := hs
      rw [show (p :: q :: rest2).length + fuel = ((q :: rest2).length + fuel) + 1 by
        simp only [List.length_cons]; omega]
      rw [pagesLoop_succ_ok attach src ((q :: rest2).length + fuel) cur acc r p c true hc]
      rw [ih fuel c (acc ++ p.map attach) (r + 1) (by simp) hrest]
      simp only [Option.some.injEq, Prod.mk.injEq]
      constructor
      · simp
        omega
      · simp [List.append_assoc]

lemma blocksLoop_false (src : String → Nat → Resp Block) (fuel : Nat) (id : String)
    (cur : Option String) (acc : List Block) (r : Nat) :
    getBlocksLoop src fuel id false cur acc r = some (r, acc) := by
  rw [getBlocksLoop.eq_def]
  simp

lemma blocksLoop_succ_threw (src : String → Nat → Resp Block) (fuel : Nat)
    (id : String) (cur : Option String) (acc : List Block) (r : Nat)
    (h : src id r = Resp.threw) :
    getBlocksLoop src (fuel + 1) id true cur acc r
      = getBlocksLoop src fuel id true cur acc (r + 1) := by
  rw [getBlocksLoop.eq_def, h]
  rfl

lemma blocksLoop_succ_ok_none (src : String → Nat → Resp Block) (fuel : Nat)
    (id : String) (cur : Option String) (acc : List Block) (r : Nat)
    (nc : Option String) (hm : Bool)
    (h : src id r = Resp.ok none nc hm) :
    getBlocksLoop src (fuel + 1) id true cur acc r
      = getBlocksLoop src fuel id true cur acc (r + 1) := by
  rw [getBlocksLoop.eq_def, h]
  rfl

lemma blocksLoop_succ_ok_some (src : String → Nat → Resp Block) (fuel : Nat)
    (id : String) (cur : Option String) (acc : List Block) (r : Nat)
    (results withKids : List Block) (nc : Option String) (hm : Bool)
    (h : src id r = Resp.ok (some results) nc hm)
    (h2 : attachChildren src fuel results = some withKids) :
    getBlocksLoop src (fuel + 1) id true cur acc r
      = getBlocksLoop src fuel id hm nc (acc ++ withKids) (r + 1) := by
  rw [getBlocksLoop.eq_def, h]
  show (match attachChildren src fuel results with
        | none => none
        | some withKids =>
          getBlocksLoop src fuel id hm nc (acc ++ withKids) (r + 1)) = _
  rw [h2]

lemma attachChildren_nil (src : String → Nat → Resp Block) (fuel : Nat) :
    attachChildren src fuel [] = some [] := by
  rw [attachChildren.eq_def]

lemma attachChildren_cons_no_kids (src : String → Nat → Resp Block) (fuel : Nat)
    (b : Block) (rest : List Block) (hb : b.has_children = false) :
    attachChildren src fuel (b :: rest)
      = match attachChildren src fuel rest with
        | none => none
        | some bs => some (b :: bs) := by
  rw [attachChildren.eq_def]
  simp [hb]

lemma attachChildren_no_kids (src : String → Nat → Resp Block) (fuel : Nat) :
    ∀ (l : List Block), (∀ b ∈ l, b.has_children = false) →
      attachChildren src fuel l = some l := by
  intro l
  induction l with
  | nil => intro _; exact attachChildren_nil src fuel
  | cons b rest ih =>
    intro h
    rw [attachChildren_cons_no_kids src fuel b rest (h b (List.mem_cons_self _ _))]
    rw [ih (fun b2 hb2 => h b2 (List.mem_cons_of_mem _ hb2))]

lemma blocksLoop_diverges (src : String → Nat → Resp Block) (id : String) :
    ∀ (fuel : Nat) (cur : Option String) (acc : List Block) (r : Nat),
      (∀ i, r ≤ i → src id i = Resp.threw) →
      getBlocksLoop src fuel id true cur acc r = none := by
  intro fuel
  induction fuel with
  | zero =>
    intro cur acc r h
    rw [getBlocksLoop.eq_def]
    simp
  | succ n ih =>
    intro cur acc r h
    rw [blocksLoop_succ_threw src n id cur acc r (h r (Nat.le_refl r))]
    exact ih cur acc (r + 1) (fun i hi => h i (by omega))

lemma blocksLoop_scripted (src : String → Nat → Resp Block) (id : String) :
    ∀ (ps : List (List Block)) (fuel : Nat) (cur : Option String)
      (acc : List Block) (r : Nat),
      ps ≠ [] → ScriptedOk (src id) r ps →
      (∀ p ∈ ps, ∀ b ∈ p, b.has_children = false) →
      getBlocksLoop src (ps.length + fuel) id true cur acc r
        = some (r + ps.length, acc ++ ps.flatten) := by
  intro ps
  induction ps with
  | nil => intro fuel cur acc r hne; exact absurd rfl hne
  | cons p rest ih =>
    intro fuel cur acc r hne hs hnc
    cases rest with
    | nil =>
      unfold ScriptedOk at hs
      obtain ⟨c, hc⟩ := hs
      rw [show ([p] : List (List Block)).length + fuel = fuel + 1 by
        simp only [List.length_cons, List.length_nil]; omega]
      rw [blocksLoop_succ_ok_some src fuel id cur acc r p p c false hc
        (attachChildren_no_kids src fuel p (hnc p (List.mem_cons_self _ _)))]
      rw [blocksLoop_false]
      simp
    | cons q rest2 =>
      unfold ScriptedOk at hs
      obtain ⟨⟨c, hc⟩, hrest⟩ := hs
      rw [show (p :: q :: rest2).length + fuel = (((q :: rest2).length + fuel)) + 1 by
        simp only [List.length_cons]; omega]
      rw [blocksLoop_succ_ok_some src ((q :: rest2).length + fuel) id cur acc r p p c true hc
        (attachChildren_no_kids src _ p (hnc p (List.mem_cons_self _ _)))]
      rw [ih fuel c (acc ++ p) (r + 1) (by simp) hrest
        (fun p2 hp2 => hnc p2 (List.mem_cons_of_mem _ hp2))]
      simp only [Option.some.injEq, Prod.mk.injEq]
      constructor
      · simp
        omega
      · simp [List.append_assoc]

/-- C1 counterexample: with a paginated source that fails on page 2 of 3,
`getPages` does not stop at the failure: the catch only logs and the loop
re-enters, so a third request is issued and the function returns page 1's
items *and* page 3's items — not exactly page 1's items. -/
theorem failure_truncation_counterexample :
    getPages (fun x => x) pageFailSrc 5 = some (3, ["a", "c"]) ∧
    (["a", "c"] : List String) ≠ ["a"] := by
  constructor
  · decide
  · decide

/-- C1 (amended): a request or parse failure does not exit a pagination
loop: the caught error leaves the collected items, cursor and has-more flag
unchanged and the loop re-issues a request (first and third conjuncts, for
`getPages` and `getBlocks`); under persistent failure the loop never
terminates, for any fuel, instead of returning the items collected before
the failure (second and fourth conjuncts). -/
theorem failure_retry_amended :
    (∀ (α : Type) (attach : α → α) (src : Nat → Resp α) (fuel : Nat)
       (cur : Option String) (acc : List α) (r : Nat),
       src r = Resp.threw →
       getPagesLoop attach src (fuel + 1) true cur acc r
         = getPagesLoop attach src fuel true cur acc (r + 1)) ∧
    (∀ (α : Type) (attach : α → α) (src : Nat → Resp α) (fuel : Nat)
       (cur : Option String) (acc : List α) (r : Nat),
       (∀ i, r ≤ i → src i = Resp.threw) →
       getPagesLoop attach src fuel true cur acc r = none) ∧
    (∀ (src : String → Nat → Resp Block) (fuel : Nat) (id : String)
       (cur : Option String) (acc : List Block) (r : Nat),
       src id r = Resp.threw →
       getBlocksLoop src (fuel + 1) id true cur acc r
         = getBlocksLoop src fuel id true cur acc (r + 1)) ∧
    (∀ (src : String → Nat → Resp Block) (fuel : Nat) (id : String)
       (cur : Option String) (acc : List Block) (r : Nat),
       (∀ i, r ≤ i → src id i = Resp.threw) →
       getBlocksLoop src fuel id true cur acc r = none) :=
  ⟨fun _ attach src fuel cur acc r h => pagesLoop_succ_threw attach src fuel cur acc r h,
   fun _ attach src fuel cur acc r h => pagesLoop_diverges attach src fuel cur acc r h,
   fun src fuel id cur acc r h => blocksLoop_succ_threw src fuel id cur acc r h,
   fun src fuel id cur acc r h => blocksLoop_diverges src id fuel cur acc r h⟩

theorem failure_retry_amended_witness :
    ((fun _ : Nat => (Resp.threw : Resp Nat)) 0 = Resp.threw) ∧
    getPagesLoop (fun x : Nat => x) (fun _ => Resp.threw) 4 true none [] 0 = none ∧
    getBlocksLoop (fun _ _ => Resp.threw) 4 "b" true none [] 0 = none :=
  ⟨rfl,
   failure_retry_amended.2.1 Nat (fun x => x) (fun _ => Resp.threw) 4 none [] 0
     (fun _ _ => rfl),
   failure_retry_amended.2.2.2 (fun _ _ => Resp.threw) 4 "b" none [] 0
     (fun _ _ => rfl)⟩

/-- C5: for a scripted paginated source of N+1 pages (has-more true for the
first N, false on the last), each pagination loop issues exactly N+1
requests and returns the concatenation of the N+1 pages' items in arrival
order — `getPages` returning each page with its children attached by
`attach`, `getBlocks` (on leaf blocks) returning the items as received. -/
theorem pagination_count_concat {α : Type} (attach : α → α) (src : Nat → Resp α)
    (bsrc : String → Nat → Resp Block) (id : String)
    (ps : List (List α)) (bs : List (List Block)) (N fuel bfuel : Nat)
    (hps : ps.length = N + 1) (hbs : bs.length = N + 1)
    (h1 : ScriptedOk src 0 ps) (h2 : ScriptedOk (bsrc id) 0 bs)
    (hnc : ∀ p ∈ bs, ∀ b ∈ p, b.has_children = false) :
    getPages attach src (N + 1 + fuel) = some (N + 1, (ps.flatten).map attach) ∧
    getBlocks bsrc (N + 1 + bfuel) id = some (N + 1, bs.flatten) := by
  constructor
  · unfold getPages
    rw [← hps]
    rw [pagesLoop_scripted attach src ps fuel none [] 0
      (by intro hn; rw [hn] at hps; simp at hps) h1]
    simp
  · unfold getBlocks
    rw [← hbs]
    rw [blocksLoop_scripted bsrc id bs bfuel none [] 0
      (by intro hn; rw [hn] at hbs; simp at hbs) h2 hnc]
    simp

theorem pagination_count_concat_witness :
    (([[7, 8]] : List (List Nat)).length = 0 + 1 ∧
      ScriptedOk onePageSrc 0 [[7, 8]]) ∧
    getPages (fun x : Nat => x) onePageSrc 1 = some (1, [7, 8]) ∧
    getBlocks oneBlockSrc 1 "x" = some (1, [leafBlkW]) := by
  have h := pagination_count_concat (fun x : Nat => x) onePageSrc oneBlockSrc "x"
    [[7, 8]] [[leafBlkW]] 0 0 0 rfl rfl ⟨none, rfl⟩ ⟨none, rfl⟩ ?hnc
  case hnc =>
    intro p hp b hb
    simp at hp
    rw [hp] at hb
    simp at hb
    rw [hb]
    rfl
  refine ⟨⟨rfl, ⟨none, rfl⟩⟩, ?_, ?_⟩
  · have h1 := h.1
    simpa using h1
  · have h2 := h.2
    simpa using h2

end NotionAPIPlugin
